import Mathlib

/-!
Shallow embedding of the ZOF_Solver root-finding engine.

The engine exists twice in the repository: once in `ZOF_CLI.py` (raw
numeric fields) and once in `app.py` (fields rounded to 10 decimal places
and error fields formatted in scientific notation).  Both are embedded
here over exact rationals: the CLI engine in namespace `ZOF`, the web
engine in namespace `ZOFWeb`, the latter parameterised by the rounding
function `rnd` (Python `round(., 10)`) and the formatting function `fmt`
(Python `f-string .6e`), which only touch output fields, never the
iteration state.

Python-level faults that escape a method (raised exceptions) are modelled
as `Except.error`; a normal `return` of the result dictionary is
`Except.ok`.  The instance field `self.iteration_data` is modelled by an
explicit state argument (its value when the method is entered) and the
second component of each method's result (its value when the method
leaves).
-/

namespace ZOF

/-- Result of `parse_function` (`sympify` + `lambdify`): either the evaluable
function together with the lambdified symbolic derivative of the parsed
expression (`sp.diff`, used only by Newton-Raphson), or the message of the
ValueError the helper raises when `sympify` fails. -/
inductive ParseResult where
  | ok (f : ℚ → ℚ) (df : ℚ → ℚ)
  | err (msg : String)

/-- One row of `iteration_data` for Bisection and Regula Falsi
(keys `iteration, a, b, c, f(c), error`). -/
structure BracketRec where
  iteration : ℕ
  a : ℚ
  b : ℚ
  c : ℚ
  fc : ℚ
  error : ℚ
  deriving Repr, DecidableEq

/-- One row of `iteration_data` for the Secant method
(keys `iteration, x0, x1, x2, f(x2), error`). -/
structure SecRec where
  iteration : ℕ
  x0 : ℚ
  x1 : ℚ
  x2 : ℚ
  fx2 : ℚ
  error : ℚ
  deriving Repr, DecidableEq

/-- One row of `iteration_data` for Newton-Raphson
(keys `iteration, x, f(x), f(x) prime, x_new, error`). -/
structure NewtRec where
  iteration : ℕ
  x : ℚ
  fx : ℚ
  dfx : ℚ
  x_new : ℚ
  error : ℚ
  deriving Repr, DecidableEq

/-- One row of `iteration_data` for Fixed Point Iteration
(keys `iteration, x, g(x), error`). -/
structure FixRec where
  iteration : ℕ
  x : ℚ
  gx : ℚ
  error : ℚ
  deriving Repr, DecidableEq

/-- One row of `iteration_data` for the Modified Secant method
(keys `iteration, x, f(x), f(x+δx), x_new, error`). -/
structure ModRec where
  iteration : ℕ
  x : ℚ
  fx : ℚ
  fxd : ℚ
  x_new : ℚ
  error : ℚ
  deriving Repr, DecidableEq

/-- The dictionary a method returns: a converged result, a
maximum-iterations result (the same dictionary plus the `warning` key), or
a failure dictionary `{"error": reason}`.  `R` is the per-method record
type; `E` is the type of the error fields (`ℚ` in the CLI engine, `String`
in the web engine, which formats them). -/
inductive Outcome (R E : Type) where
  | converged (root : ℚ) (iterations : ℕ) (final_error : E) (trace : List R)
  | maxIterReached (root : ℚ) (iterations : ℕ) (final_error : E) (trace : List R)
  | failed (reason : String)
  deriving DecidableEq

instance {ε α : Type} [DecidableEq ε] [DecidableEq α] : DecidableEq (Except ε α)
  | .error a, .error b => decidable_of_iff (a = b) (by simp)
  | .error _, .ok _ => .isFalse fun h => Except.noConfusion h
  | .ok _, .error _ => .isFalse fun h => Except.noConfusion h
  | .ok a, .ok b => decidable_of_iff (a = b) (by simp)

/-- A method call's effect: the returned dictionary (or the escaped
exception) and the final value of `self.iteration_data`. -/
abbrev MResult (R E : Type) := Except String (Outcome R E) × List R

/-- The loop of `bisection_method` (`ZOF_CLI.py` lines 43-80).  `i` is the
1-based index of the next pass, `fuel` the number of passes left,
`trace` the rows appended so far, and `last` the values of the Python
locals `c` and `error` from the previous pass (`none` when no pass has
run, in which case the post-loop `return` raises a NameError). -/
def bisectionLoop (f : ℚ → ℚ) (tol : ℚ) (maxIter : ℕ) (a b fa fb : ℚ)
    (i : ℕ) (trace : List BracketRec) (last : Option (ℚ × ℚ)) :
    (fuel : ℕ) → MResult BracketRec ℚ
  | 0 =>
    match last with
    | some (c, err) => (.ok (.maxIterReached c maxIter err trace), trace)
    | none => (.error "NameError: name c is not defined", trace)
  | fuel + 1 =>
    let c := (a + b) / 2
    let fc := f c
    let err := |b - a| / 2
    let tr := trace ++ [⟨i, a, b, c, fc, err⟩]
    if |fc| < tol ∨ err < tol then
      (.ok (.converged c i err tr), tr)
    else if fa * fc < 0 then
      bisectionLoop f tol maxIter a c fa fc (i + 1) tr (some (c, err)) fuel
    else
      bisectionLoop f tol maxIter c b fc fb (i + 1) tr (some (c, err)) fuel

/-- `ZOFSolver.bisection_method` (`ZOF_CLI.py` lines 28-80).  `st` is the
value of `self.iteration_data` on entry; a parse failure re-raises the
ValueError before the field is reset. -/
def bisection_method (st : List BracketRec) (pr : ParseResult) (a b : ℚ)
    (tol : ℚ) (max_iter : ℕ) : MResult BracketRec ℚ :=
  match pr with
  | .err m => (.error ("ValueError: Error parsing function: " ++ m), st)
  | .ok f _ =>
    let fa := f a
    let fb := f b
    if fa * fb > 0 then
      (.ok (.failed "Function must have opposite signs at endpoints"), [])
    else
      bisectionLoop f tol max_iter a b fa fb 1 [] none max_iter

/-- The loop of `regula_falsi_method` (`ZOF_CLI.py` lines 99-142).  Python
raises a ZeroDivisionError when the denominator `fb - fa` is exactly zero
(the code has no guard); `c_old` is the Python local of the same name. -/
def regulaLoop (f : ℚ → ℚ) (tol : ℚ) (maxIter : ℕ) (a b fa fb c_old : ℚ)
    (i : ℕ) (trace : List BracketRec) (last : Option (ℚ × ℚ)) :
    (fuel : ℕ) → MResult BracketRec ℚ
  | 0 =>
    match last with
    | some (c, err) => (.ok (.maxIterReached c maxIter err trace), trace)
    | none => (.error "NameError: name c is not defined", trace)
  | fuel + 1 =>
    if fb - fa = 0 then
      (.error "ZeroDivisionError: float division by zero", trace)
    else
      let c := b - (fb * (b - a)) / (fb - fa)
      let fc := f c
      let err := if 1 < i then |c - c_old| else |b - a|
      let tr := trace ++ [⟨i, a, b, c, fc, err⟩]
      if |fc| < tol ∨ err < tol then
        (.ok (.converged c i err tr), tr)
      else if fa * fc < 0 then
        regulaLoop f tol maxIter a c fa fc c (i + 1) tr (some (c, err)) fuel
      else
        regulaLoop f tol maxIter c b fc fb c (i + 1) tr (some (c, err)) fuel

/-- `ZOFSolver.regula_falsi_method` (`ZOF_CLI.py` lines 82-142). -/
def regula_falsi_method (st : List BracketRec) (pr : ParseResult) (a b : ℚ)
    (tol : ℚ) (max_iter : ℕ) : MResult BracketRec ℚ :=
  match pr with
  | .err m => (.error ("ValueError: Error parsing function: " ++ m), st)
  | .ok f _ =>
    let fa := f a
    let fb := f b
    if fa * fb > 0 then
      (.ok (.failed "Function must have opposite signs at endpoints"), [])
    else
      regulaLoop f tol max_iter a b fa fb a 1 [] none max_iter

/-- The loop of `secant_method` (`ZOF_CLI.py` lines 155-191).  The
near-zero-denominator guard runs at the top of every pass, before `x2` is
computed. -/
def secantLoop (f : ℚ → ℚ) (tol : ℚ) (maxIter : ℕ) (x0 x1 f0 f1 : ℚ)
    (i : ℕ) (trace : List SecRec) (last : Option (ℚ × ℚ)) :
    (fuel : ℕ) → MResult SecRec ℚ
  | 0 =>
    match last with
    | some (x2, err) => (.ok (.maxIterReached x2 maxIter err trace), trace)
    | none => (.error "NameError: name x2 is not defined", trace)
  | fuel + 1 =>
    if |f1 - f0| < 1 / 10 ^ 12 then
      (.ok (.failed "Division by zero: f(x1) - f(x0) too small"), trace)
    else
      let x2 := x1 - f1 * (x1 - x0) / (f1 - f0)
      let f2 := f x2
      let err := |x2 - x1|
      let tr := trace ++ [⟨i, x0, x1, x2, f2, err⟩]
      if |f2| < tol ∨ err < tol then
        (.ok (.converged x2 i err tr), tr)
      else
        secantLoop f tol maxIter x1 x2 f1 f2 (i + 1) tr (some (x2, err)) fuel

/-- `ZOFSolver.secant_method` (`ZOF_CLI.py` lines 144-191). -/
def secant_method (st : List SecRec) (pr : ParseResult) (x0 x1 : ℚ)
    (tol : ℚ) (max_iter : ℕ) : MResult SecRec ℚ :=
  match pr with
  | .err m => (.error ("ValueError: Error parsing function: " ++ m), st)
  | .ok f _ =>
    secantLoop f tol max_iter x0 x1 (f x0) (f x1) 1 [] none max_iter

/-- The loop of `newton_raphson_method` (`ZOF_CLI.py` lines 208-245).
`df` is the lambdified symbolic derivative; the near-zero-derivative guard
runs before the division `fx / dfx`.  `last` is the Python local `error`
of the previous pass (the post-loop `return` reads it). -/
def newtonLoop (f df : ℚ → ℚ) (tol : ℚ) (maxIter : ℕ) (x : ℚ)
    (i : ℕ) (trace : List NewtRec) (last : Option ℚ) :
    (fuel : ℕ) → MResult NewtRec ℚ
  | 0 =>
    match last with
    | some err => (.ok (.maxIterReached x maxIter err trace), trace)
    | none => (.error "NameError: name error is not defined", trace)
  | fuel + 1 =>
    let fx := f x
    let dfx := df x
    if |dfx| < 1 / 10 ^ 12 then
      (.ok (.failed "Derivative too small, division by zero"), trace)
    else
      let x_new := x - fx / dfx
      let err := |x_new - x|
      let tr := trace ++ [⟨i, x, fx, dfx, x_new, err⟩]
      if |f x_new| < tol ∨ err < tol then
        (.ok (.converged x_new i err tr), tr)
      else
        newtonLoop f df tol maxIter x_new (i + 1) tr (some err) fuel

/-- `ZOFSolver.newton_raphson_method` (`ZOF_CLI.py` lines 193-245). -/
def newton_raphson_method (st : List NewtRec) (pr : ParseResult) (x0 : ℚ)
    (tol : ℚ) (max_iter : ℕ) : MResult NewtRec ℚ :=
  match pr with
  | .err m => (.error ("ValueError: Error parsing function: " ++ m), st)
  | .ok f df =>
    newtonLoop f df tol max_iter x0 1 [] none max_iter

/-- The loop of `fixed_point_iteration` (`ZOF_CLI.py` lines 258-291).
The convergence test (`error < tol`) runs before the divergence test
(`abs(x_new) > 1e10`); the record is appended before both. -/
def fixedLoop (g : ℚ → ℚ) (tol : ℚ) (maxIter : ℕ) (x : ℚ)
    (i : ℕ) (trace : List FixRec) (last : Option ℚ) :
    (fuel : ℕ) → MResult FixRec ℚ
  | 0 =>
    match last with
    | some err => (.ok (.maxIterReached x maxIter err trace), trace)
    | none => (.error "NameError: name error is not defined", trace)
  | fuel + 1 =>
    let x_new := g x
    let err := |x_new - x|
    let tr := trace ++ [⟨i, x, x_new, err⟩]
    if err < tol then
      (.ok (.converged x_new i err tr), tr)
    else if 10 ^ 10 < |x_new| then
      (.ok (.failed "Method diverging, |x| > 10^10"), tr)
    else
      fixedLoop g tol maxIter x_new (i + 1) tr (some err) fuel

/-- `ZOFSolver.fixed_point_iteration` (`ZOF_CLI.py` lines 247-291). -/
def fixed_point_iteration (st : List FixRec) (pr : ParseResult) (x0 : ℚ)
    (tol : ℚ) (max_iter : ℕ) : MResult FixRec ℚ :=
  match pr with
  | .err m => (.error ("ValueError: Error parsing function: " ++ m), st)
  | .ok g _ =>
    fixedLoop g tol max_iter x0 1 [] none max_iter

/-- The loop of `modified_secant_method` (`ZOF_CLI.py` lines 303-341).
The probe point is `x + delta * x`, or `x + delta` when `x == 0`; the
near-zero-denominator guard runs before the division. -/
def modSecantLoop (f : ℚ → ℚ) (delta tol : ℚ) (maxIter : ℕ) (x : ℚ)
    (i : ℕ) (trace : List ModRec) (last : Option ℚ) :
    (fuel : ℕ) → MResult ModRec ℚ
  | 0 =>
    match last with
    | some err => (.ok (.maxIterReached x maxIter err trace), trace)
    | none => (.error "NameError: name error is not defined", trace)
  | fuel + 1 =>
    let fx := f x
    let fxd := if x ≠ 0 then f (x + delta * x) else f (x + delta)
    let denom := fxd - fx
    if |denom| < 1 / 10 ^ 12 then
      (.ok (.failed "Division by zero: f(x + δx) - f(x) too small"), trace)
    else
      let x_new := x - fx * (if x ≠ 0 then delta * x else delta) / denom
      let err := |x_new - x|
      let tr := trace ++ [⟨i, x, fx, fxd, x_new, err⟩]
      if |f x_new| < tol ∨ err < tol then
        (.ok (.converged x_new i err tr), tr)
      else
        modSecantLoop f delta tol maxIter x_new (i + 1) tr (some err) fuel

/-- `ZOFSolver.modified_secant_method` (`ZOF_CLI.py` lines 293-341). -/
def modified_secant_method (st : List ModRec) (pr : ParseResult) (x0 delta : ℚ)
    (tol : ℚ) (max_iter : ℕ) : MResult ModRec ℚ :=
  match pr with
  | .err m => (.error ("ValueError: Error parsing function: " ++ m), st)
  | .ok f _ =>
    modSecantLoop f delta tol max_iter x0 1 [] none max_iter

/-- The last row of a trace has the given estimate and error fields
(`est`/`errf` select the method's estimate and error columns). -/
def lastRowOK {R : Type} (est errf : R → ℚ) (root fe : ℚ) (tr : List R) : Bool :=
  match tr.getLast? with
  | some r => decide (est r = root) && decide (errf r = fe)
  | none => false

/-- The spec invariant on a returned dictionary: the trace length equals
the reported iteration count and the last row's estimate/error columns
equal the reported `root`/`final_error`.  Failure dictionaries carry no
trace, so they satisfy it vacuously. -/
def traceConsistent {R : Type} (est errf : R → ℚ) : Outcome R ℚ → Bool
  | .converged root n fe tr => decide (tr.length = n) && lastRowOK est errf root fe tr
  | .maxIterReached root n fe tr => decide (tr.length = n) && lastRowOK est errf root fe tr
  | .failed _ => true

/-- `traceConsistent` lifted to a possibly-raising call (a raised exception
returns no dictionary). -/
def resultConsistent {R : Type} (est errf : R → ℚ) :
    Except String (Outcome R ℚ) → Bool
  | .ok o => traceConsistent est errf o
  | .error _ => true

/-- True when a call returned the failure dictionary `{"error": reason}`
(as opposed to raising, converging, or exhausting the iteration budget). -/
def returnsFailure {R E : Type} : Except String (Outcome R E) → Bool
  | .ok (.failed _) => true
  | _ => false

/-- A Bisection/Regula-Falsi trace row whose bracket `[a, b]` and estimate
`c` all lie inside `[lo, hi]`. -/
def rowInRange (lo hi : ℚ) (r : BracketRec) : Bool :=
  decide (lo ≤ r.a ∧ r.a ≤ hi ∧ lo ≤ r.b ∧ r.b ≤ hi ∧ lo ≤ r.c ∧ r.c ≤ hi)

/-- Bracket containment for a call result: any returned root and every
intermediate bracket/estimate recorded in the trace lie inside `[lo, hi]`. -/
def containedIn (lo hi : ℚ) : Except String (Outcome BracketRec ℚ) → Bool
  | .ok (.converged root _ _ tr) =>
      decide (lo ≤ root ∧ root ≤ hi) && tr.all (rowInRange lo hi)
  | .ok (.maxIterReached root _ _ tr) =>
      decide (lo ≤ root ∧ root ≤ hi) && tr.all (rowInRange lo hi)
  | _ => true

/-- `iteration_data` row of the web engine's Bisection / Regula Falsi:
numeric fields pass through `round(., 10)` and the error field through
the `.6e` f-string. -/
structure BracketRecW where
  iteration : ℕ
  a : ℚ
  b : ℚ
  c : ℚ
  fc : ℚ
  error : String
  deriving Repr, DecidableEq

/-- Web-engine Secant row. -/
structure SecRecW where
  iteration : ℕ
  x0 : ℚ
  x1 : ℚ
  x2 : ℚ
  fx2 : ℚ
  error : String
  deriving Repr, DecidableEq

/-- Web-engine Newton-Raphson row. -/
structure NewtRecW where
  iteration : ℕ
  x : ℚ
  fx : ℚ
  dfx : ℚ
  x_new : ℚ
  error : String
  deriving Repr, DecidableEq

/-- Web-engine Fixed Point row. -/
structure FixRecW where
  iteration : ℕ
  x : ℚ
  gx : ℚ
  error : String
  deriving Repr, DecidableEq

/-- Web-engine Modified Secant row. -/
structure ModRecW where
  iteration : ℕ
  x : ℚ
  fx : ℚ
  fxd : ℚ
  x_new : ℚ
  error : String
  deriving Repr, DecidableEq

/-- How the web engine stores a Bisection/Regula-Falsi row: `round(., 10)`
(`rnd`) on each numeric field and the `.6e` f-string (`fmt`) on the error
field. -/
def renderBracketRec (rnd : ℚ → ℚ) (fmt : ℚ → String) (r : BracketRec) :
    BracketRecW :=
  ⟨r.iteration, rnd r.a, rnd r.b, rnd r.c, rnd r.fc, fmt r.error⟩

/-- Web rendering of a Secant row. -/
def renderSecRec (rnd : ℚ → ℚ) (fmt : ℚ → String) (r : SecRec) : SecRecW :=
  ⟨r.iteration, rnd r.x0, rnd r.x1, rnd r.x2, rnd r.fx2, fmt r.error⟩

/-- Web rendering of a Newton-Raphson row. -/
def renderNewtRec (rnd : ℚ → ℚ) (fmt : ℚ → String) (r : NewtRec) : NewtRecW :=
  ⟨r.iteration, rnd r.x, rnd r.fx, rnd r.dfx, rnd r.x_new, fmt r.error⟩

/-- Web rendering of a Fixed Point row. -/
def renderFixRec (rnd : ℚ → ℚ) (fmt : ℚ → String) (r : FixRec) : FixRecW :=
  ⟨r.iteration, rnd r.x, rnd r.gx, fmt r.error⟩

/-- Web rendering of a Modified Secant row. -/
def renderModRec (rnd : ℚ → ℚ) (fmt : ℚ → String) (r : ModRec) : ModRecW :=
  ⟨r.iteration, rnd r.x, rnd r.fx, rnd r.fxd, rnd r.x_new, fmt r.error⟩

/-- Web rendering of a CLI outcome: the root is rounded, the final error is
formatted, each row is rendered, and iteration counts and failure reasons
are untouched. -/
def renderOutcome {R R' : Type} (rnd : ℚ → ℚ) (fmt : ℚ → String)
    (mr : R → R') : Outcome R ℚ → Outcome R' String
  | .converged root n fe tr => .converged (rnd root) n (fmt fe) (tr.map mr)
  | .maxIterReached root n fe tr => .maxIterReached (rnd root) n (fmt fe) (tr.map mr)
  | .failed m => .failed m

end ZOF

namespace ZOFWeb

open ZOF

/-!
The engine in `app.py` is the same code with two changes at the output
spots only: every numeric field stored in a record or in the outcome goes
through Python's `round(., 10)`, modelled by the parameter `rnd`, and
every error field goes through the f-string `.6e`, modelled by `fmt`.
The iteration state itself (`a, b, c, fa, fb, x, ...`) is never rounded.
-/

/-- The loop of `bisection_method` (`app.py` lines 42-79). -/
def bisectionLoop (rnd : ℚ → ℚ) (fmt : ℚ → String) (f : ℚ → ℚ) (tol : ℚ)
    (maxIter : ℕ) (a b fa fb : ℚ) (i : ℕ) (trace : List BracketRecW)
    (last : Option (ℚ × ℚ)) : (fuel : ℕ) → MResult BracketRecW String
  | 0 =>
    match last with
    | some (c, err) => (.ok (.maxIterReached (rnd c) maxIter (fmt err) trace), trace)
    | none => (.error "NameError: name c is not defined", trace)
  | fuel + 1 =>
    let c := (a + b) / 2
    let fc := f c
    let err := |b - a| / 2
    let tr := trace ++ [⟨i, rnd a, rnd b, rnd c, rnd fc, fmt err⟩]
    if |fc| < tol ∨ err < tol then
      (.ok (.converged (rnd c) i (fmt err) tr), tr)
    else if fa * fc < 0 then
      bisectionLoop rnd fmt f tol maxIter a c fa fc (i + 1) tr (some (c, err)) fuel
    else
      bisectionLoop rnd fmt f tol maxIter c b fc fb (i + 1) tr (some (c, err)) fuel

/-- `ZOFSolver.bisection_method` (`app.py` lines 30-79). -/
def bisection_method (rnd : ℚ → ℚ) (fmt : ℚ → String) (st : List BracketRecW)
    (pr : ParseResult) (a b : ℚ) (tol : ℚ) (max_iter : ℕ) :
    MResult BracketRecW String :=
  match pr with
  | .err m => (.error ("ValueError: Error parsing function: " ++ m), st)
  | .ok f _ =>
    let fa := f a
    let fb := f b
    if fa * fb > 0 then
      (.ok (.failed "Function must have opposite signs at endpoints"), [])
    else
      bisectionLoop rnd fmt f tol max_iter a b fa fb 1 [] none max_iter

/-- The loop of `regula_falsi_method` (`app.py` lines 95-137). -/
def regulaLoop (rnd : ℚ → ℚ) (fmt : ℚ → String) (f : ℚ → ℚ) (tol : ℚ)
    (maxIter : ℕ) (a b fa fb c_old : ℚ) (i : ℕ) (trace : List BracketRecW)
    (last : Option (ℚ × ℚ)) : (fuel : ℕ) → MResult BracketRecW String
  | 0 =>
    match last with
    | some (c, err) => (.ok (.maxIterReached (rnd c) maxIter (fmt err) trace), trace)
    | none => (.error "NameError: name c is not defined", trace)
  | fuel + 1 =>
    if fb - fa = 0 then
      (.error "ZeroDivisionError: float division by zero", trace)
    else
      let c := b - (fb * (b - a)) / (fb - fa)
      let fc := f c
      let err := if 1 < i then |c - c_old| else |b - a|
      let tr := trace ++ [⟨i, rnd a, rnd b, rnd c, rnd fc, fmt err⟩]
      if |fc| < tol ∨ err < tol then
        (.ok (.converged (rnd c) i (fmt err) tr), tr)
      else if fa * fc < 0 then
        regulaLoop rnd fmt f tol maxIter a c fa fc c (i + 1) tr (some (c, err)) fuel
      else
        regulaLoop rnd fmt f tol maxIter c b fc fb c (i + 1) tr (some (c, err)) fuel

/-- `ZOFSolver.regula_falsi_method` (`app.py` lines 81-137). -/
def regula_falsi_method (rnd : ℚ → ℚ) (fmt : ℚ → String) (st : List BracketRecW)
    (pr : ParseResult) (a b : ℚ) (tol : ℚ) (max_iter : ℕ) :
    MResult BracketRecW String :=
  match pr with
  | .err m => (.error ("ValueError: Error parsing function: " ++ m), st)
  | .ok f _ =>
    let fa := f a
    let fb := f b
    if fa * fb > 0 then
      (.ok (.failed "Function must have opposite signs at endpoints"), [])
    else
      regulaLoop rnd fmt f tol max_iter a b fa fb a 1 [] none max_iter

/-- The loop of `secant_method` (`app.py` lines 149-184). -/
def secantLoop (rnd : ℚ → ℚ) (fmt : ℚ → String) (f : ℚ → ℚ) (tol : ℚ)
    (maxIter : ℕ) (x0 x1 f0 f1 : ℚ) (i : ℕ) (trace : List SecRecW)
    (last : Option (ℚ × ℚ)) : (fuel : ℕ) → MResult SecRecW String
  | 0 =>
    match last with
    | some (x2, err) => (.ok (.maxIterReached (rnd x2) maxIter (fmt err) trace), trace)
    | none => (.error "NameError: name x2 is not defined", trace)
  | fuel + 1 =>
    if |f1 - f0| < 1 / 10 ^ 12 then
      (.ok (.failed "Division by zero: f(x1) - f(x0) too small"), trace)
    else
      let x2 := x1 - f1 * (x1 - x0) / (f1 - f0)
      let f2 := f x2
      let err := |x2 - x1|
      let tr := trace ++ [⟨i, rnd x0, rnd x1, rnd x2, rnd f2, fmt err⟩]
      if |f2| < tol ∨ err < tol then
        (.ok (.converged (rnd x2) i (fmt err) tr), tr)
      else
        secantLoop rnd fmt f tol maxIter x1 x2 f1 f2 (i + 1) tr (some (x2, err)) fuel

/-- `ZOFSolver.secant_method` (`app.py` lines 140-184). -/
def secant_method (rnd : ℚ → ℚ) (fmt : ℚ → String) (st : List SecRecW)
    (pr : ParseResult) (x0 x1 : ℚ) (tol : ℚ) (max_iter : ℕ) :
    MResult SecRecW String :=
  match pr with
  | .err m => (.error ("ValueError: Error parsing function: " ++ m), st)
  | .ok f _ =>
    secantLoop rnd fmt f tol max_iter x0 x1 (f x0) (f x1) 1 [] none max_iter

/-- The loop of `newton_raphson_method` (`app.py` lines 198-234). -/
def newtonLoop (rnd : ℚ → ℚ) (fmt : ℚ → String) (f df : ℚ → ℚ) (tol : ℚ)
    (maxIter : ℕ) (x : ℚ) (i : ℕ) (trace : List NewtRecW)
    (last : Option ℚ) : (fuel : ℕ) → MResult NewtRecW String
  | 0 =>
    match last with
    | some err => (.ok (.maxIterReached (rnd x) maxIter (fmt err) trace), trace)
    | none => (.error "NameError: name error is not defined", trace)
  | fuel + 1 =>
    let fx := f x
    let dfx := df x
    if |dfx| < 1 / 10 ^ 12 then
      (.ok (.failed "Derivative too small, division by zero"), trace)
    else
      let x_new := x - fx / dfx
      let err := |x_new - x|
      let tr := trace ++ [⟨i, rnd x, rnd fx, rnd dfx, rnd x_new, fmt err⟩]
      if |f x_new| < tol ∨ err < tol then
        (.ok (.converged (rnd x_new) i (fmt err) tr), tr)
      else
        newtonLoop rnd fmt f df tol maxIter x_new (i + 1) tr (some err) fuel

/-- `ZOFSolver.newton_raphson_method` (`app.py` lines 187-234). -/
def newton_raphson_method (rnd : ℚ → ℚ) (fmt : ℚ → String) (st : List NewtRecW)
    (pr : ParseResult) (x0 : ℚ) (tol : ℚ) (max_iter : ℕ) :
    MResult NewtRecW String :=
  match pr with
  | .err m => (.error ("ValueError: Error parsing function: " ++ m), st)
  | .ok f df =>
    newtonLoop rnd fmt f df tol max_iter x0 1 [] none max_iter

/-- The loop of `fixed_point_iteration` (`app.py` lines 245-276). -/
def fixedLoop (rnd : ℚ → ℚ) (fmt : ℚ → String) (g : ℚ → ℚ) (tol : ℚ)
    (maxIter : ℕ) (x : ℚ) (i : ℕ) (trace : List FixRecW)
    (last : Option ℚ) : (fuel : ℕ) → MResult FixRecW String
  | 0 =>
    match last with
    | some err => (.ok (.maxIterReached (rnd x) maxIter (fmt err) trace), trace)
    | none => (.error "NameError: name error is not defined", trace)
  | fuel + 1 =>
    let x_new := g x
    let err := |x_new - x|
    let tr := trace ++ [⟨i, rnd x, rnd x_new, fmt err⟩]
    if err < tol then
      (.ok (.converged (rnd x_new) i (fmt err) tr), tr)
    else if 10 ^ 10 < |x_new| then
      (.ok (.failed "Method diverging, |x| > 10^10"), tr)
    else
      fixedLoop rnd fmt g tol maxIter x_new (i + 1) tr (some err) fuel

/-- `ZOFSolver.fixed_point_iteration` (`app.py` lines 237-276). -/
def fixed_point_iteration (rnd : ℚ → ℚ) (fmt : ℚ → String) (st : List FixRecW)
    (pr : ParseResult) (x0 : ℚ) (tol : ℚ) (max_iter : ℕ) :
    MResult FixRecW String :=
  match pr with
  | .err m => (.error ("ValueError: Error parsing function: " ++ m), st)
  | .ok g _ =>
    fixedLoop rnd fmt g tol max_iter x0 1 [] none max_iter

/-- The loop of `modified_secant_method` (`app.py` lines 287-324). -/
def modSecantLoop (rnd : ℚ → ℚ) (fmt : ℚ → String) (f : ℚ → ℚ)
    (delta tol : ℚ) (maxIter : ℕ) (x : ℚ) (i : ℕ) (trace : List ModRecW)
    (last : Option ℚ) : (fuel : ℕ) → MResult ModRecW String
  | 0 =>
    match last with
    | some err => (.ok (.maxIterReached (rnd x) maxIter (fmt err) trace), trace)
    | none => (.error "NameError: name error is not defined", trace)
  | fuel + 1 =>
    let fx := f x
    let fxd := if x ≠ 0 then f (x + delta * x) else f (x + delta)
    let denom := fxd - fx
    if |denom| < 1 / 10 ^ 12 then
      (.ok (.failed "Division by zero: f(x + δx) - f(x) too small"), trace)
    else
      let x_new := x - fx * (if x ≠ 0 then delta * x else delta) / denom
      let err := |x_new - x|
      let tr := trace ++ [⟨i, rnd x, rnd fx, rnd fxd, rnd x_new, fmt err⟩]
      if |f x_new| < tol ∨ err < tol then
        (.ok (.converged (rnd x_new) i (fmt err) tr), tr)
      else
        modSecantLoop rnd fmt f delta tol maxIter x_new (i + 1) tr (some err) fuel

/-- `ZOFSolver.modified_secant_method` (`app.py` lines 279-324). -/
def modified_secant_method (rnd : ℚ → ℚ) (fmt : ℚ → String) (st : List ModRecW)
    (pr : ParseResult) (x0 delta : ℚ) (tol : ℚ) (max_iter : ℕ) :
    MResult ModRecW String :=
  match pr with
  | .err m => (.error ("ValueError: Error parsing function: " ++ m), st)
  | .ok f _ =>
    modSecantLoop rnd fmt f delta tol max_iter x0 1 [] none max_iter

end ZOFWeb

namespace ZOF

theorem lastRowOK_concat {R : Type} (est errf : R → ℚ) (r : R) (tr : List R) :
    lastRowOK est errf (est r) (errf r) (tr ++ [r]) = true := by
  simp [lastRowOK, List.getLast?_concat]

/-- Loop invariant for C1, Bisection: if the rows so far number `i - 1`
and the saved `(c, error)` pair is the last row's, every outcome of the
remaining passes satisfies the trace invariant. -/
theorem bisectionLoop_consistent (f : ℚ → ℚ) (tol : ℚ) (maxIter : ℕ) :
    ∀ (fuel : ℕ) (a b fa fb : ℚ) (i : ℕ) (trace : List BracketRec)
      (last : Option (ℚ × ℚ)),
      trace.length + 1 = i →
      i + fuel = maxIter + 1 →
      (∀ c e, last = some (c, e) →
        lastRowOK (·.c) (·.error) c e trace = true) →
      resultConsistent (·.c) (·.error)
        (bisectionLoop f tol maxIter a b fa fb i trace last fuel).1 = true := by
  intro fuel
  induction fuel with
  | zero =>
    intro a b fa fb i trace last hlen hcnt hlast
    match last with
    | none => simp [bisectionLoop, resultConsistent]
    | some (c, e) =>
      have hrow := hlast c e rfl
      have hL : trace.length = maxIter := by omega
      simp [bisectionLoop, resultConsistent, traceConsistent, hrow, hL]
  | succ fuel ih =>
    intro a b fa fb i trace last hlen hcnt hlast
    simp only [bisectionLoop]
    split_ifs with hconv hsign
    · have hrow := lastRowOK_concat (·.c) (·.error)
        ⟨i, a, b, (a + b) / 2, f ((a + b) / 2), |b - a| / 2⟩ trace
      simp only [resultConsistent, traceConsistent]
      simp [hrow, hlen]
    · exact ih a ((a + b) / 2) fa (f ((a + b) / 2)) (i + 1) _ _
        (by simp; omega) (by omega)
        (fun c e h => by
          obtain ⟨rfl, rfl⟩ : (a + b) / 2 = c ∧ |b - a| / 2 = e := by
            injection h with h'; injection h' with h1 h2; exact ⟨h1, h2⟩
          exact lastRowOK_concat (·.c) (·.error)
            ⟨i, a, b, (a + b) / 2, f ((a + b) / 2), |b - a| / 2⟩ trace)
    · exact ih ((a + b) / 2) b (f ((a + b) / 2)) fb (i + 1) _ _
        (by simp; omega) (by omega)
        (fun c e h => by
          obtain ⟨rfl, rfl⟩ : (a + b) / 2 = c ∧ |b - a| / 2 = e := by
            injection h with h'; injection h' with h1 h2; exact ⟨h1, h2⟩
          exact lastRowOK_concat (·.c) (·.error)
            ⟨i, a, b, (a + b) / 2, f ((a + b) / 2), |b - a| / 2⟩ trace)

/-- Loop invariant for C1, Regula Falsi. -/
theorem regulaLoop_consistent (f : ℚ → ℚ) (tol : ℚ) (maxIter : ℕ) :
    ∀ (fuel : ℕ) (a b fa fb c_old : ℚ) (i : ℕ) (trace : List BracketRec)
      (last : Option (ℚ × ℚ)),
      trace.length + 1 = i →
      i + fuel = maxIter + 1 →
      (∀ c e, last = some (c, e) →
        lastRowOK (·.c) (·.error) c e trace = true) →
      resultConsistent (·.c) (·.error)
        (regulaLoop f tol maxIter a b fa fb c_old i trace last fuel).1 = true := by
  intro fuel
  induction fuel with
  | zero =>
    intro a b fa fb c_old i trace last hlen hcnt hlast
    match last with
    | none => simp [regulaLoop, resultConsistent]
    | some (c, e) =>
      have hrow := hlast c e rfl
      have hL : trace.length = maxIter := by omega
      simp [regulaLoop, resultConsistent, traceConsistent, hrow, hL]
  | succ fuel ih =>
    intro a b fa fb c_old i trace last hlen hcnt hlast
    simp only [regulaLoop]
    by_cases hz : fb - fa = 0
    · simp [hz, resultConsistent]
    · rw [if_neg hz]
      set c := b - fb * (b - a) / (fb - fa) with hc
      set E := if 1 < i then |c - c_old| else |b - a| with hE
      split_ifs with hconv hsign
      · have hrow := lastRowOK_concat (·.c) (·.error) ⟨i, a, b, c, f c, E⟩ trace
        simp only [resultConsistent, traceConsistent]
        simp [hrow, hlen]
      · exact ih a c fa (f c) c (i + 1) _ _
          (by simp; omega) (by omega)
          (fun c' e' h => by
            obtain ⟨rfl, rfl⟩ : c = c' ∧ E = e' := by
              injection h with h'; injection h' with h1 h2; exact ⟨h1, h2⟩
            exact lastRowOK_concat (·.c) (·.error) ⟨i, a, b, c, f c, E⟩ trace)
      · exact ih c b (f c) fb c (i + 1) _ _
          (by simp; omega) (by omega)
          (fun c' e' h => by
            obtain ⟨rfl, rfl⟩ : c = c' ∧ E = e' := by
              injection h with h'; injection h' with h1 h2; exact ⟨h1, h2⟩
            exact lastRowOK_concat (·.c) (·.error) ⟨i, a, b, c, f c, E⟩ trace)

/-- Loop invariant for C1, Secant. -/
theorem secantLoop_consistent (f : ℚ → ℚ) (tol : ℚ) (maxIter : ℕ) :
    ∀ (fuel : ℕ) (x0 x1 f0 f1 : ℚ) (i : ℕ) (trace : List SecRec)
      (last : Option (ℚ × ℚ)),
      trace.length + 1 = i →
      i + fuel = maxIter + 1 →
      (∀ x2 e, last = some (x2, e) →
        lastRowOK (·.x2) (·.error) x2 e trace = true) →
      resultConsistent (·.x2) (·.error)
        (secantLoop f tol maxIter x0 x1 f0 f1 i trace last fuel).1 = true := by
  intro fuel
  induction fuel with
  | zero =>
    intro x0 x1 f0 f1 i trace last hlen hcnt hlast
    match last with
    | none => simp [secantLoop, resultConsistent]
    | some (x2, e) =>
      have hrow := hlast x2 e rfl
      have hL : trace.length = maxIter := by omega
      simp [secantLoop, resultConsistent, traceConsistent, hrow, hL]
  | succ fuel ih =>
    intro x0 x1 f0 f1 i trace last hlen hcnt hlast
    simp only [secantLoop]
    split_ifs with hguard hconv
    · simp [resultConsistent, traceConsistent]
    · simp only [resultConsistent, traceConsistent, Bool.and_eq_true,
        decide_eq_true_eq]
      refine ⟨by simp; omega, ?_⟩
      exact lastRowOK_concat (·.x2) (·.error)
        ⟨i, x0, x1, x1 - f1 * (x1 - x0) / (f1 - f0),
          f (x1 - f1 * (x1 - x0) / (f1 - f0)),
          |x1 - f1 * (x1 - x0) / (f1 - f0) - x1|⟩ trace
    · exact ih x1 (x1 - f1 * (x1 - x0) / (f1 - f0)) f1
        (f (x1 - f1 * (x1 - x0) / (f1 - f0))) (i + 1) _ _
        (by simp; omega) (by omega)
        (fun x2 e h => by
          obtain ⟨rfl, rfl⟩ :
              x1 - f1 * (x1 - x0) / (f1 - f0) = x2 ∧
              |x1 - f1 * (x1 - x0) / (f1 - f0) - x1| = e := by
            injection h with h'; injection h' with h1 h2; exact ⟨h1, h2⟩
          exact lastRowOK_concat (·.x2) (·.error)
            ⟨i, x0, x1, x1 - f1 * (x1 - x0) / (f1 - f0),
              f (x1 - f1 * (x1 - x0) / (f1 - f0)),
              |x1 - f1 * (x1 - x0) / (f1 - f0) - x1|⟩ trace)

/-- Loop invariant for C1, Newton-Raphson: here the saved `error` local
pairs with the loop's current `x` (the last row's `x_new`). -/
theorem newtonLoop_consistent (f df : ℚ → ℚ) (tol : ℚ) (maxIter : ℕ) :
    ∀ (fuel : ℕ) (x : ℚ) (i : ℕ) (trace : List NewtRec) (last : Option ℚ),
      trace.length + 1 = i →
      i + fuel = maxIter + 1 →
      (∀ e, last = some e →
        lastRowOK (·.x_new) (·.error) x e trace = true) →
      resultConsistent (·.x_new) (·.error)
        (newtonLoop f df tol maxIter x i trace last fuel).1 = true := by
  intro fuel
  induction fuel with
  | zero =>
    intro x i trace last hlen hcnt hlast
    match last with
    | none => simp [newtonLoop, resultConsistent]
    | some e =>
      have hrow := hlast e rfl
      have hL : trace.length = maxIter := by omega
      simp [newtonLoop, resultConsistent, traceConsistent, hrow, hL]
  | succ fuel ih =>
    intro x i trace last hlen hcnt hlast
    simp only [newtonLoop]
    split_ifs with hguard hconv
    · simp [resultConsistent, traceConsistent]
    · simp only [resultConsistent, traceConsistent, Bool.and_eq_true,
        decide_eq_true_eq]
      refine ⟨by simp; omega, ?_⟩
      exact lastRowOK_concat (·.x_new) (·.error)
        ⟨i, x, f x, df x, x - f x / df x, |x - f x / df x - x|⟩ trace
    · exact ih (x - f x / df x) (i + 1) _ _
        (by simp; omega) (by omega)
        (fun e h => by
          obtain rfl : |x - f x / df x - x| = e := by injection h
          exact lastRowOK_concat (·.x_new) (·.error)
            ⟨i, x, f x, df x, x - f x / df x, |x - f x / df x - x|⟩ trace)

/-- Loop invariant for C1, Fixed Point Iteration. -/
theorem fixedLoop_consistent (g : ℚ → ℚ) (tol : ℚ) (maxIter : ℕ) :
    ∀ (fuel : ℕ) (x : ℚ) (i : ℕ) (trace : List FixRec) (last : Option ℚ),
      trace.length + 1 = i →
      i + fuel = maxIter + 1 →
      (∀ e, last = some e →
        lastRowOK (·.gx) (·.error) x e trace = true) →
      resultConsistent (·.gx) (·.error)
        (fixedLoop g tol maxIter x i trace last fuel).1 = true := by
  intro fuel
  induction fuel with
  | zero =>
    intro x i trace last hlen hcnt hlast
    match last with
    | none => simp [fixedLoop, resultConsistent]
    | some e =>
      have hrow := hlast e rfl
      have hL : trace.length = maxIter := by omega
      simp [fixedLoop, resultConsistent, traceConsistent, hrow, hL]
  | succ fuel ih =>
    intro x i trace last hlen hcnt hlast
    simp only [fixedLoop]
    split_ifs with hconv hdiv
    · simp only [resultConsistent, traceConsistent, Bool.and_eq_true,
        decide_eq_true_eq]
      refine ⟨by simp; omega, ?_⟩
      exact lastRowOK_concat (·.gx) (·.error) ⟨i, x, g x, |g x - x|⟩ trace
    · simp [resultConsistent, traceConsistent]
    · exact ih (g x) (i + 1) _ _
        (by simp; omega) (by omega)
        (fun e h => by
          obtain rfl : |g x - x| = e := by injection h
          exact lastRowOK_concat (·.gx) (·.error) ⟨i, x, g x, |g x - x|⟩ trace)

/-- Loop invariant for C1, Modified Secant. -/
theorem modSecantLoop_consistent (f : ℚ → ℚ) (delta tol : ℚ) (maxIter : ℕ) :
    ∀ (fuel : ℕ) (x : ℚ) (i : ℕ) (trace : List ModRec) (last : Option ℚ),
      trace.length + 1 = i →
      i + fuel = maxIter + 1 →
      (∀ e, last = some e →
        lastRowOK (·.x_new) (·.error) x e trace = true) →
      resultConsistent (·.x_new) (·.error)
        (modSecantLoop f delta tol maxIter x i trace last fuel).1 = true := by
  intro fuel
  induction fuel with
  | zero =>
    intro x i trace last hlen hcnt hlast
    match last with
    | none => simp [modSecantLoop, resultConsistent]
    | some e =>
      have hrow := hlast e rfl
      have hL : trace.length = maxIter := by omega
      simp [modSecantLoop, resultConsistent, traceConsistent, hrow, hL]
  | succ fuel ih =>
    intro x i trace last hlen hcnt hlast
    simp only [modSecantLoop]
    set P := if x ≠ 0 then f (x + delta * x) else f (x + delta) with hP
    set S := if x ≠ 0 then delta * x else delta with hS
    split_ifs with hguard hconv
    · simp [resultConsistent, traceConsistent]
    · simp only [resultConsistent, traceConsistent, Bool.and_eq_true,
        decide_eq_true_eq]
      refine ⟨by simp; omega, ?_⟩
      exact lastRowOK_concat (·.x_new) (·.error)
        ⟨i, x, f x, P, x - f x * S / (P - f x), |x - f x * S / (P - f x) - x|⟩ trace
    · exact ih (x - f x * S / (P - f x)) (i + 1) _ _
        (by simp; omega) (by omega)
        (fun e h => by
          obtain rfl : |x - f x * S / (P - f x) - x| = e := by injection h
          exact lastRowOK_concat (·.x_new) (·.error)
            ⟨i, x, f x, P, x - f x * S / (P - f x),
              |x - f x * S / (P - f x) - x|⟩ trace)

/-- Claim C1: for every invocation of any of the six methods that returns a
non-failed dictionary (Converged or MaxIterationsReached), the length of the
returned trace equals the reported iteration count, and the last trace row's
error and estimate columns (`c` for Bisection/Regula Falsi, `x2` for Secant,
`x_new` for Newton-Raphson/Modified Secant, `g(x)` for Fixed Point) equal
the outcome's `final_error` and `root`. -/
theorem C1_trace_matches_outcome :
    (∀ st pr a b tol mi, resultConsistent (·.c) (·.error)
        (bisection_method st pr a b tol mi).1 = true) ∧
    (∀ st pr a b tol mi, resultConsistent (·.c) (·.error)
        (regula_falsi_method st pr a b tol mi).1 = true) ∧
    (∀ st pr x0 x1 tol mi, resultConsistent (·.x2) (·.error)
        (secant_method st pr x0 x1 tol mi).1 = true) ∧
    (∀ st pr x0 tol mi, resultConsistent (·.x_new) (·.error)
        (newton_raphson_method st pr x0 tol mi).1 = true) ∧
    (∀ st pr x0 tol mi, resultConsistent (·.gx) (·.error)
        (fixed_point_iteration st pr x0 tol mi).1 = true) ∧
    (∀ st pr x0 delta tol mi, resultConsistent (·.x_new) (·.error)
        (modified_secant_method st pr x0 delta tol mi).1 = true) := by
  refine ⟨?_, ?_, ?_, ?_, ?_, ?_⟩
  · intro st pr a b tol mi
    match pr with
    | .err m => simp [bisection_method, resultConsistent]
    | .ok f df =>
      simp only [bisection_method]
      split_ifs with hpos
      · simp [resultConsistent, traceConsistent]
      · exact bisectionLoop_consistent f tol mi mi a b (f a) (f b) 1 [] none
          (by simp) (by omega) (fun c e h => Option.noConfusion h)
  · intro st pr a b tol mi
    match pr with
    | .err m => simp [regula_falsi_method, resultConsistent]
    | .ok f df =>
      simp only [regula_falsi_method]
      split_ifs with hpos
      · simp [resultConsistent, traceConsistent]
      · exact regulaLoop_consistent f tol mi mi a b (f a) (f b) a 1 [] none
          (by simp) (by omega) (fun c e h => Option.noConfusion h)
  · intro st pr x0 x1 tol mi
    match pr with
    | .err m => simp [secant_method, resultConsistent]
    | .ok f df =>
      exact secantLoop_consistent f tol mi mi x0 x1 (f x0) (f x1) 1 [] none
        (by simp) (by omega) (fun x2 e h => Option.noConfusion h)
  · intro st pr x0 tol mi
    match pr with
    | .err m => simp [newton_raphson_method, resultConsistent]
    | .ok f df =>
      exact newtonLoop_consistent f df tol mi mi x0 1 [] none
        (by simp) (by omega) (fun e h => Option.noConfusion h)
  · intro st pr x0 tol mi
    match pr with
    | .err m => simp [fixed_point_iteration, resultConsistent]
    | .ok g df =>
      exact fixedLoop_consistent g tol mi mi x0 1 [] none
        (by simp) (by omega) (fun e h => Option.noConfusion h)
  · intro st pr x0 delta tol mi
    match pr with
    | .err m => simp [modified_secant_method, resultConsistent]
    | .ok f df =>
      exact modSecantLoop_consistent f delta tol mi mi x0 1 [] none
        (by simp) (by omega) (fun e h => Option.noConfusion h)

/-- Claim C2, counterexample: on a non-parseable function text the Bisection
method does not return a Failed outcome — the ValueError raised by
`parse_function` escapes the method uncaught (the presentation layers catch
it). -/
theorem C2_counterexample_parse_error_escapes :
    returnsFailure (bisection_method [] (.err "invalid syntax") 0 3
      (1/1000000) 100).1 = false ∧
    (bisection_method [] (.err "invalid syntax") 0 3 (1/1000000) 100).1 =
      .error "ValueError: Error parsing function: invalid syntax" := by
  exact ⟨rfl, rfl⟩

/-- Claim C2 (amended): for every function text that fails to parse, each of
the six methods re-raises the `ValueError` wrapped by `parse_function`; the
exception escapes the method as a runtime fault (handled only by the
presentation layers), no Failed outcome is returned, and `iteration_data`
is left untouched. -/
theorem C2_amended_parse_error_raises :
    (∀ st (m : String) (a b tol : ℚ) mi, bisection_method st (.err m) a b tol mi =
      (.error ("ValueError: Error parsing function: " ++ m), st)) ∧
    (∀ st (m : String) (a b tol : ℚ) mi, regula_falsi_method st (.err m) a b tol mi =
      (.error ("ValueError: Error parsing function: " ++ m), st)) ∧
    (∀ st (m : String) (x0 x1 tol : ℚ) mi, secant_method st (.err m) x0 x1 tol mi =
      (.error ("ValueError: Error parsing function: " ++ m), st)) ∧
    (∀ st (m : String) (x0 tol : ℚ) mi, newton_raphson_method st (.err m) x0 tol mi =
      (.error ("ValueError: Error parsing function: " ++ m), st)) ∧
    (∀ st (m : String) (x0 tol : ℚ) mi, fixed_point_iteration st (.err m) x0 tol mi =
      (.error ("ValueError: Error parsing function: " ++ m), st)) ∧
    (∀ st (m : String) (x0 delta tol : ℚ) mi, modified_secant_method st (.err m) x0 delta tol mi =
      (.error ("ValueError: Error parsing function: " ++ m), st)) := by
  exact ⟨fun _ _ _ _ _ _ => rfl, fun _ _ _ _ _ _ => rfl, fun _ _ _ _ _ _ => rfl,
    fun _ _ _ _ _ => rfl, fun _ _ _ _ _ => rfl, fun _ _ _ _ _ _ => rfl⟩

/-- The Bisection loop itself never produces a failure dictionary: its only
outcomes are convergence, budget exhaustion, or the NameError raise. -/
theorem bisectionLoop_no_failure (f : ℚ → ℚ) (tol : ℚ) (maxIter : ℕ) :
    ∀ (fuel : ℕ) (a b fa fb : ℚ) (i : ℕ) (trace : List BracketRec)
      (last : Option (ℚ × ℚ)),
      returnsFailure (bisectionLoop f tol maxIter a b fa fb i trace last fuel).1 =
        false := by
  intro fuel
  induction fuel with
  | zero =>
    intro a b fa fb i trace last
    match last with
    | none => simp [bisectionLoop, returnsFailure]
    | some (c, e) => simp [bisectionLoop, returnsFailure]
  | succ fuel ih =>
    intro a b fa fb i trace last
    simp only [bisectionLoop]
    split_ifs with hconv hsign
    · simp [returnsFailure]
    · exact ih _ _ _ _ _ _ _
    · exact ih _ _ _ _ _ _ _

/-- The Regula Falsi loop never produces a failure dictionary: its only
outcomes are convergence, budget exhaustion, or a raised
ZeroDivisionError/NameError. -/
theorem regulaLoop_no_failure (f : ℚ → ℚ) (tol : ℚ) (maxIter : ℕ) :
    ∀ (fuel : ℕ) (a b fa fb c_old : ℚ) (i : ℕ) (trace : List BracketRec)
      (last : Option (ℚ × ℚ)),
      returnsFailure (regulaLoop f tol maxIter a b fa fb c_old i trace last fuel).1 =
        false := by
  intro fuel
  induction fuel with
  | zero =>
    intro a b fa fb c_old i trace last
    match last with
    | none => simp [regulaLoop, returnsFailure]
    | some (c, e) => simp [regulaLoop, returnsFailure]
  | succ fuel ih =>
    intro a b fa fb c_old i trace last
    simp only [regulaLoop]
    split_ifs <;> first
      | exact ih _ _ _ _ _ _ _ _
      | simp [returnsFailure]

/-- Claim C4: Bisection and Regula Falsi return the opposite-sign
precondition failure exactly when `f(a) * f(b) > 0` at the start; a bracket
with `f(a) * f(b) = 0` is accepted and never yields that failure. -/
theorem C4_precondition_iff :
    (∀ st f df (a b tol : ℚ) mi,
      ((bisection_method st (.ok f df) a b tol mi).1 =
          .ok (.failed "Function must have opposite signs at endpoints") ↔
        0 < f a * f b)) ∧
    (∀ st f df (a b tol : ℚ) mi,
      ((regula_falsi_method st (.ok f df) a b tol mi).1 =
          .ok (.failed "Function must have opposite signs at endpoints") ↔
        0 < f a * f b)) := by
  constructor
  · intro st f df a b tol mi
    simp only [bisection_method]
    split_ifs with hpos
    · simpa using hpos
    · simp only [gt_iff_lt] at hpos
      constructor
      · intro h
        have := bisectionLoop_no_failure f tol mi mi a b (f a) (f b) 1 [] none
        rw [h] at this
        simp [returnsFailure] at this
      · intro h; exact absurd h hpos
  · intro st f df a b tol mi
    simp only [regula_falsi_method]
    split_ifs with hpos
    · simpa using hpos
    · simp only [gt_iff_lt] at hpos
      constructor
      · intro h
        have := regulaLoop_no_failure f tol mi mi a b (f a) (f b) a 1 [] none
        rw [h] at this
        simp [returnsFailure] at this
      · intro h; exact absurd h hpos

/-- The false-position point `b - f(b)(b-a)/(f(b)-f(a))` stays inside any
interval `[lo, hi]` containing `a` and `b`, provided `f(a)*f(b) < 0`. -/
theorem falsePosition_mem (lo hi a b fa fb : ℚ)
    (hla : lo ≤ a) (hah : a ≤ hi) (hlb : lo ≤ b) (hbh : b ≤ hi)
    (hsign : fa * fb < 0) :
    lo ≤ b - fb * (b - a) / (fb - fa) ∧ b - fb * (b - a) / (fb - fa) ≤ hi := by
  have hfa : fa ≠ 0 := by
    intro h
    rw [h] at hsign
    simp at hsign
  rcases lt_or_gt_of_ne hfa with hneg | hpos
  · have hfb : 0 < fb := by nlinarith
    have hd : 0 < fb - fa := by linarith
    have hc : b - fb * (b - a) / (fb - fa) = (a * fb - b * fa) / (fb - fa) := by
      field_simp
      ring
    constructor
    · rw [hc, le_div_iff₀ hd]
      nlinarith [mul_nonneg (sub_nonneg.mpr hla) hfb.le,
        mul_nonneg_of_nonpos_of_nonpos (sub_nonpos.mpr hlb) hneg.le]
    · rw [hc, div_le_iff₀ hd]
      nlinarith [mul_nonneg (sub_nonneg.mpr hah) hfb.le,
        mul_nonneg_of_nonpos_of_nonpos (sub_nonpos.mpr hbh) hneg.le]
  · have hfb : fb < 0 := by nlinarith
    have hd : fb - fa < 0 := by linarith
    have hne : fb - fa ≠ 0 := ne_of_lt hd
    have hc : b - fb * (b - a) / (fb - fa) = (a * fb - b * fa) / (fb - fa) := by
      field_simp
      ring
    constructor
    · rw [hc, le_div_iff_of_neg hd]
      nlinarith [mul_nonneg_of_nonpos_of_nonpos (sub_nonpos.mpr hla) hfb.le,
        mul_nonneg (sub_nonneg.mpr hlb) hpos.le]
    · rw [hc, div_le_iff_of_neg hd]
      nlinarith [mul_nonneg_of_nonpos_of_nonpos (sub_nonpos.mpr hah) hfb.le,
        mul_nonneg (sub_nonneg.mpr hbh) hpos.le]

/-- Loop invariant for C3, Bisection: the bracket shrinks inside `[lo, hi]`
and every produced row and root stays inside it. -/
theorem bisectionLoop_contained (f : ℚ → ℚ) (tol : ℚ) (maxIter : ℕ)
    (lo hi : ℚ) :
    ∀ (fuel : ℕ) (a b fa fb : ℚ) (i : ℕ) (trace : List BracketRec)
      (last : Option (ℚ × ℚ)),
      lo ≤ a → a ≤ b → b ≤ hi →
      trace.all (rowInRange lo hi) = true →
      (∀ c e, last = some (c, e) → lo ≤ c ∧ c ≤ hi) →
      containedIn lo hi
        (bisectionLoop f tol maxIter a b fa fb i trace last fuel).1 = true := by
  intro fuel
  induction fuel with
  | zero =>
    intro a b fa fb i trace last hla hab hbh htr hlast
    match last with
    | none => simp [bisectionLoop, containedIn]
    | some (c, e) =>
      obtain ⟨h1, h2⟩ := hlast c e rfl
      simp [bisectionLoop, containedIn, htr, h1, h2]
  | succ fuel ih =>
    intro a b fa fb i trace last hla hab hbh htr hlast
    have hac : a ≤ (a + b) / 2 := by linarith
    have hcb : (a + b) / 2 ≤ b := by linarith
    have hrow : rowInRange lo hi
        ⟨i, a, b, (a + b) / 2, f ((a + b) / 2), |b - a| / 2⟩ = true := by
      simp only [rowInRange, decide_eq_true_eq]
      exact ⟨hla, by linarith, by linarith, hbh, by linarith, by linarith⟩
    have htr2 : (trace ++
        [(⟨i, a, b, (a + b) / 2, f ((a + b) / 2), |b - a| / 2⟩ : BracketRec)]).all
          (rowInRange lo hi) = true := by
      rw [List.all_append]
      simp [htr, hrow]
    simp only [bisectionLoop]
    split_ifs with hconv hsign
    · simp only [containedIn, Bool.and_eq_true, decide_eq_true_eq]
      exact ⟨⟨by linarith, by linarith⟩, htr2⟩
    · exact ih a ((a + b) / 2) fa (f ((a + b) / 2)) (i + 1) _ _
        hla hac (by linarith) htr2
        (fun c e h => by
          obtain ⟨rfl, rfl⟩ : (a + b) / 2 = c ∧ |b - a| / 2 = e := by
            injection h with h'; injection h' with h1 h2; exact ⟨h1, h2⟩
          exact ⟨by linarith, by linarith⟩)
    · exact ih ((a + b) / 2) b (f ((a + b) / 2)) fb (i + 1) _ _
        (by linarith) hcb hbh htr2
        (fun c e h => by
          obtain ⟨rfl, rfl⟩ : (a + b) / 2 = c ∧ |b - a| / 2 = e := by
            injection h with h'; injection h' with h1 h2; exact ⟨h1, h2⟩
          exact ⟨by linarith, by linarith⟩)

/-- Loop invariant for C3, Regula Falsi: as long as the carried function
values have opposite signs and both endpoints lie in `[lo, hi]`, every
produced row and root stays inside `[lo, hi]`.  `0 < tol` rules out an
exact zero at the false-position point slipping past the convergence
test. -/
theorem regulaLoop_contained (f : ℚ → ℚ) (tol : ℚ) (maxIter : ℕ)
    (lo hi : ℚ) (htol : 0 < tol) :
    ∀ (fuel : ℕ) (a b fa fb c_old : ℚ) (i : ℕ) (trace : List BracketRec)
      (last : Option (ℚ × ℚ)),
      lo ≤ a → a ≤ hi → lo ≤ b → b ≤ hi →
      fa * fb < 0 →
      trace.all (rowInRange lo hi) = true →
      (∀ c e, last = some (c, e) → lo ≤ c ∧ c ≤ hi) →
      containedIn lo hi
        (regulaLoop f tol maxIter a b fa fb c_old i trace last fuel).1 = true := by
  intro fuel
  induction fuel with
  | zero =>
    intro a b fa fb c_old i trace last hla hah hlb hbh hsign htr hlast
    match last with
    | none => simp [regulaLoop, containedIn]
    | some (c, e) =>
      obtain ⟨h1, h2⟩ := hlast c e rfl
      simp [regulaLoop, containedIn, htr, h1, h2]
  | succ fuel ih =>
    intro a b fa fb c_old i trace last hla hah hlb hbh hsign htr hlast
    simp only [regulaLoop]
    by_cases hz : fb - fa = 0
    · simp [hz, containedIn]
    · rw [if_neg hz]
      set c := b - fb * (b - a) / (fb - fa) with hcdef
      obtain ⟨hlc, hch⟩ : lo ≤ c ∧ c ≤ hi :=
        falsePosition_mem lo hi a b fa fb hla hah hlb hbh hsign
      set E := if 1 < i then |c - c_old| else |b - a| with hE
      have hrow : rowInRange lo hi ⟨i, a, b, c, f c, E⟩ = true := by
        simp only [rowInRange, decide_eq_true_eq]
        exact ⟨hla, hah, hlb, hbh, hlc, hch⟩
      have htr2 : (trace ++ [(⟨i, a, b, c, f c, E⟩ : BracketRec)]).all
          (rowInRange lo hi) = true := by
        rw [List.all_append]
        simp [htr, hrow]
      split_ifs with hconv hsgn
      · simp only [containedIn, Bool.and_eq_true, decide_eq_true_eq]
        exact ⟨⟨hlc, hch⟩, htr2⟩
      · exact ih a c fa (f c) c (i + 1) _ _ hla hah hlc hch hsgn htr2
          (fun c' e' h => by
            obtain ⟨rfl, rfl⟩ : c = c' ∧ E = e' := by
              injection h with h'; injection h' with h1 h2; exact ⟨h1, h2⟩
            exact ⟨hlc, hch⟩)
      · have hfc : f c ≠ 0 := by
          intro h0
          apply hconv
          left
          rw [h0]
          simpa using htol
        have hfa : fa ≠ 0 := by
          intro h
          rw [h] at hsign
          simp at hsign
        have hprod : 0 < fa * f c :=
          lt_of_le_of_ne (not_lt.mp hsgn) (Ne.symm (mul_ne_zero hfa hfc))
        have hsign2 : f c * fb < 0 := by
          by_contra h4
          push_neg at h4
          have h2 : fa * f c * (fa * fb) < 0 := mul_neg_of_pos_of_neg hprod hsign
          nlinarith [mul_nonneg (sq_nonneg fa) h4]
        exact ih c b (f c) fb c (i + 1) _ _ hlc hch hlb hbh hsign2 htr2
          (fun c' e' h => by
            obtain ⟨rfl, rfl⟩ : c = c' ∧ E = e' := by
              injection h with h'; injection h' with h1 h2; exact ⟨h1, h2⟩
            exact ⟨hlc, hch⟩)

/-- Claim C3: for Bisection and Regula Falsi on a valid bracket `[a, b]`
with `f(a) * f(b) < 0` (and a positive tolerance), every intermediate
bracket and estimate recorded in the trace lies within the original
`[a, b]`, and any returned root `r` satisfies `a ≤ r ≤ b`. -/
theorem C3_bracket_containment :
    (∀ st f df (a b tol : ℚ) mi, a ≤ b → f a * f b < 0 → 0 < tol →
      containedIn a b (bisection_method st (.ok f df) a b tol mi).1 = true) ∧
    (∀ st f df (a b tol : ℚ) mi, a ≤ b → f a * f b < 0 → 0 < tol →
      containedIn a b (regula_falsi_method st (.ok f df) a b tol mi).1 = true) := by
  constructor
  · intro st f df a b tol mi hab hsign htol
    simp only [bisection_method]
    rw [if_neg (by simp only [gt_iff_lt, not_lt]; exact hsign.le)]
    exact bisectionLoop_contained f tol mi a b mi a b (f a) (f b) 1 [] none
      le_rfl hab le_rfl rfl (fun c e h => Option.noConfusion h)
  · intro st f df a b tol mi hab hsign htol
    simp only [regula_falsi_method]
    rw [if_neg (by simp only [gt_iff_lt, not_lt]; exact hsign.le)]
    exact regulaLoop_contained f tol mi a b htol mi a b (f a) (f b) a 1 [] none
      le_rfl hab hab le_rfl hsign rfl (fun c e h => Option.noConfusion h)

/-- Concrete instantiation of C3: `f(x) = x^2 - 4` on the bracket `[0, 3]`
with tolerance `1/2` satisfies the hypotheses, and both methods' results
stay inside `[0, 3]`. -/
theorem C3_bracket_containment_witness :
    ((0 : ℚ) ≤ 3 ∧
      (fun x : ℚ => x ^ 2 - 4) 0 * (fun x : ℚ => x ^ 2 - 4) 3 < 0 ∧
      (0 : ℚ) < 1/2) ∧
    containedIn 0 3 (bisection_method [] (.ok (fun x => x ^ 2 - 4)
      (fun x => 2 * x)) 0 3 (1/2) 100).1 = true ∧
    containedIn 0 3 (regula_falsi_method [] (.ok (fun x => x ^ 2 - 4)
      (fun x => 2 * x)) 0 3 (1/2) 100).1 = true :=
  ⟨⟨by norm_num, by norm_num, by norm_num⟩,
    C3_bracket_containment.1 [] (fun x => x ^ 2 - 4) (fun x => 2 * x)
      0 3 (1/2) 100 (by norm_num) (by norm_num) (by norm_num),
    C3_bracket_containment.2 [] (fun x => x ^ 2 - 4) (fun x => 2 * x)
      0 3 (1/2) 100 (by norm_num) (by norm_num) (by norm_num)⟩

/-- Once at least one pass has run (or unconditionally when the saved
`error` local exists), the Newton-Raphson loop never raises: every exit is
a returned dictionary. -/
theorem newtonLoop_no_raise (f df : ℚ → ℚ) (tol : ℚ) (maxIter : ℕ) :
    ∀ (fuel : ℕ) (x : ℚ) (i : ℕ) (trace : List NewtRec) (last : Option ℚ),
      (last ≠ none ∨ 1 ≤ fuel) →
      ∀ msg, (newtonLoop f df tol maxIter x i trace last fuel).1 ≠ .error msg := by
  intro fuel
  induction fuel with
  | zero =>
    intro x i trace last h msg
    match last with
    | none =>
      rcases h with h' | h'
      · exact absurd rfl h'
      · omega
    | some e => exact fun hc => Except.noConfusion hc
  | succ fuel ih =>
    intro x i trace last h msg
    simp only [newtonLoop]
    split_ifs with hguard hconv
    · exact fun hc => Except.noConfusion hc
    · exact fun hc => Except.noConfusion hc
    · exact ih _ _ _ _ (Or.inl (by simp)) msg

/-- Claim C5: Newton-Raphson divides by `f'(x)` only behind the
`|f'(x)| >= 1e-12` guard.  Whenever the derivative magnitude at the current
iterate falls below `1e-12`, that pass immediately returns the
near-zero-derivative failure dictionary (first conjunct: any loop state;
second: a fresh call); and a successfully parsed call with at least one
allowed iteration never raises a division fault (third conjunct). -/
theorem C5_newton_derivative_guard :
    (∀ f df (tol : ℚ) maxIter (x : ℚ) i trace last (fuel : ℕ),
      1 ≤ fuel → |df x| < 1 / 10 ^ 12 →
      (newtonLoop f df tol maxIter x i trace last fuel).1 =
        .ok (.failed "Derivative too small, division by zero")) ∧
    (∀ st f df (x0 tol : ℚ) mi, 1 ≤ mi → |df x0| < 1 / 10 ^ 12 →
      (newton_raphson_method st (.ok f df) x0 tol mi).1 =
        .ok (.failed "Derivative too small, division by zero")) ∧
    (∀ st f df (x0 tol : ℚ) mi, 1 ≤ mi →
      ∀ msg, (newton_raphson_method st (.ok f df) x0 tol mi).1 ≠ .error msg) := by
  refine ⟨?_, ?_, ?_⟩
  · intro f df tol maxIter x i trace last fuel hfuel hsmall
    obtain ⟨k, rfl⟩ : ∃ k, fuel = k + 1 := ⟨fuel - 1, by omega⟩
    simp only [newtonLoop]
    rw [if_pos hsmall]
  · intro st f df x0 tol mi hmi hsmall
    obtain ⟨k, rfl⟩ : ∃ k, mi = k + 1 := ⟨mi - 1, by omega⟩
    simp only [newton_raphson_method, newtonLoop]
    rw [if_pos hsmall]
  · intro st f df x0 tol mi hmi msg
    simp only [newton_raphson_method]
    exact newtonLoop_no_raise f df tol mi mi x0 1 [] none (Or.inr hmi) msg

/-- Concrete instantiation of C5: `f(x) = x^2 - 4` with `x0 = 0` has
`f'(0) = 0 < 1e-12`, and the call returns the failure dictionary. -/
theorem C5_newton_derivative_guard_witness :
    ((1 : ℕ) ≤ 100 ∧ |(fun x : ℚ => 2 * x) 0| < 1 / 10 ^ 12) ∧
    (newton_raphson_method [] (.ok (fun x : ℚ => x ^ 2 - 4) (fun x => 2 * x))
      0 (1/1000000) 100).1 =
      .ok (.failed "Derivative too small, division by zero") :=
  ⟨⟨by norm_num, by norm_num⟩,
    C5_newton_derivative_guard.2.1 [] (fun x : ℚ => x ^ 2 - 4) (fun x => 2 * x)
      0 (1/1000000) 100 (by norm_num) (by norm_num)⟩

unseal Rat.inv Rat.add Rat.mul Rat.sub in
/-- Claim C6: whenever a Fixed Point pass produces an `x_new` that fails the
convergence test and has `|x_new| > 1e10`, that very pass returns the
divergence failure dictionary (first conjunct); in particular the spec's
example `g(x) = 2x`, `x0 = 1`, `tol = 1e-6` terminates with the divergence
failure rather than exhausting its 100-iteration budget (second
conjunct). -/
theorem C6_fixed_point_divergence :
    (∀ g (tol : ℚ) maxIter (x : ℚ) i trace last (fuel : ℕ),
      1 ≤ fuel → tol ≤ |g x - x| → 10 ^ 10 < |g x| →
      (fixedLoop g tol maxIter x i trace last fuel).1 =
        .ok (.failed "Method diverging, |x| > 10^10")) ∧
    (fixed_point_iteration [] (.ok (fun x => 2 * x) (fun _ => 2)) 1
      (1/1000000) 100).1 = .ok (.failed "Method diverging, |x| > 10^10") := by
  constructor
  · intro g tol maxIter x i trace last fuel hfuel hstep hbig
    obtain ⟨k, rfl⟩ : ∃ k, fuel = k + 1 := ⟨fuel - 1, by omega⟩
    simp only [fixedLoop]
    rw [if_neg (not_lt.mpr hstep), if_pos hbig]
  · decide

/-- Concrete instantiation of C6's first conjunct at a diverged state. -/
theorem C6_fixed_point_divergence_witness :
    ((1 : ℕ) ≤ 7 ∧
      (1/1000000 : ℚ) ≤ |(fun x : ℚ => 2 * x) (10 ^ 11) - 10 ^ 11| ∧
      (10 : ℚ) ^ 10 < |(fun x : ℚ => 2 * x) (10 ^ 11)|) ∧
    (fixedLoop (fun x : ℚ => 2 * x) (1/1000000) 50 (10 ^ 11) 1 [] none 7).1 =
      .ok (.failed "Method diverging, |x| > 10^10") :=
  ⟨⟨by norm_num, by norm_num, by norm_num⟩,
    C6_fixed_point_divergence.1 (fun x : ℚ => 2 * x) (1/1000000) 50 (10 ^ 11)
      1 [] none 7 (by norm_num) (by norm_num) (by norm_num)⟩

/-- Any Converged dictionary produced by the Fixed Point loop has
`final_error < tol` (and the final error is the step size, by C1). -/
theorem fixedLoop_converged_step_lt (g : ℚ → ℚ) (tol : ℚ) (maxIter : ℕ) :
    ∀ (fuel : ℕ) (x : ℚ) (i : ℕ) (trace : List FixRec) (last : Option ℚ)
      (root : ℚ) (n : ℕ) (fe : ℚ) (tr : List FixRec),
      (fixedLoop g tol maxIter x i trace last fuel).1 =
        .ok (.converged root n fe tr) → fe < tol := by
  intro fuel
  induction fuel with
  | zero =>
    intro x i trace last root n fe tr h
    match last with
    | none => simp [fixedLoop] at h
    | some e => simp [fixedLoop] at h
  | succ fuel ih =>
    intro x i trace last root n fe tr h
    simp only [fixedLoop] at h
    split_ifs at h with hconv hdiv
    · simp only [Except.ok.injEq, Outcome.converged.injEq] at h
      obtain ⟨h1, h2, h3, h4⟩ := h
      rw [← h3]
      exact hconv
    · simp at h
    · exact ih _ _ _ _ root n fe tr h

/-- Claim C7: Fixed Point declares convergence exactly when the step size
`|x_new - x|` is below tolerance.  First conjunct: a pass with a small step
returns Converged immediately — with no test on `|x_new|`, so convergence
wins even when `|x_new|` exceeds the `1e10` divergence threshold; second
and third conjuncts: any Converged outcome (of the loop, and of a fresh
call) has final error — the step size — below tolerance.  No
function-value test appears anywhere in the loop. -/
theorem C7_fixed_point_convergence_iff_step :
    (∀ g (tol : ℚ) maxIter (x : ℚ) i trace last (fuel : ℕ),
      1 ≤ fuel → |g x - x| < tol →
      (fixedLoop g tol maxIter x i trace last fuel).1 =
        .ok (.converged (g x) i (|g x - x|)
          (trace ++ [⟨i, x, g x, |g x - x|⟩]))) ∧
    (∀ g (tol : ℚ) maxIter (x : ℚ) i trace last (fuel : ℕ) root n fe tr,
      (fixedLoop g tol maxIter x i trace last fuel).1 =
        .ok (.converged root n fe tr) → fe < tol) ∧
    (∀ st g dg (x0 tol : ℚ) mi root n fe tr,
      (fixed_point_iteration st (.ok g dg) x0 tol mi).1 =
        .ok (.converged root n fe tr) → fe < tol) := by
  refine ⟨?_, ?_, ?_⟩
  · intro g tol maxIter x i trace last fuel hfuel hstep
    obtain ⟨k, rfl⟩ : ∃ k, fuel = k + 1 := ⟨fuel - 1, by omega⟩
    simp only [fixedLoop]
    rw [if_pos hstep]
  · intro g tol maxIter x i trace last fuel root n fe tr h
    exact fixedLoop_converged_step_lt g tol maxIter fuel x i trace last root n fe tr h
  · intro st g dg x0 tol mi root n fe tr h
    simp only [fixed_point_iteration] at h
    exact fixedLoop_converged_step_lt g tol mi mi x0 1 [] none root n fe tr h

/-- Concrete instantiation of C7: `g(x) = x` at `x0 = 10^11` has step size
`0 < tol` while `|x_new| = 10^11 > 1e10`; the pass returns Converged, not
the divergence failure. -/
theorem C7_fixed_point_convergence_iff_step_witness :
    ((1 : ℕ) ≤ 5 ∧ |(fun x : ℚ => x) (10 ^ 11) - 10 ^ 11| < 1/1000000 ∧
      (10 : ℚ) ^ 10 < |(fun x : ℚ => x) (10 ^ 11)|) ∧
    (fixedLoop (fun x : ℚ => x) (1/1000000) 50 (10 ^ 11) 1 [] none 5).1 =
      .ok (.converged (10 ^ 11) 1 0 [⟨1, 10 ^ 11, 10 ^ 11, 0⟩]) :=
  ⟨⟨by norm_num, by norm_num, by norm_num⟩, by
    have h := C7_fixed_point_convergence_iff_step.1 (fun x : ℚ => x)
      (1/1000000) 50 (10 ^ 11) 1 [] none 5 (by norm_num) (by norm_num)
    simpa using h⟩

/-- Claim C8: no method's returned value depends on the contents of
`self.iteration_data` left over from any prior call — the field is rebound
to a fresh list before iteration starts (and on a parse failure the raise
happens before the field is even read).  Two fresh invocations on identical
inputs therefore return identical outcomes. -/
theorem C8_result_independent_of_prior_state :
    (∀ st st' pr (a b tol : ℚ) mi, (bisection_method st pr a b tol mi).1 =
      (bisection_method st' pr a b tol mi).1) ∧
    (∀ st st' pr (a b tol : ℚ) mi, (regula_falsi_method st pr a b tol mi).1 =
      (regula_falsi_method st' pr a b tol mi).1) ∧
    (∀ st st' pr (x0 x1 tol : ℚ) mi, (secant_method st pr x0 x1 tol mi).1 =
      (secant_method st' pr x0 x1 tol mi).1) ∧
    (∀ st st' pr (x0 tol : ℚ) mi, (newton_raphson_method st pr x0 tol mi).1 =
      (newton_raphson_method st' pr x0 tol mi).1) ∧
    (∀ st st' pr (x0 tol : ℚ) mi, (fixed_point_iteration st pr x0 tol mi).1 =
      (fixed_point_iteration st' pr x0 tol mi).1) ∧
    (∀ st st' pr (x0 delta tol : ℚ) mi, (modified_secant_method st pr x0 delta tol mi).1 =
      (modified_secant_method st' pr x0 delta tol mi).1) := by
  refine ⟨?_, ?_, ?_, ?_, ?_, ?_⟩ <;>
    first
      | (intro st st' pr a b tol mi; cases pr <;> rfl)
      | (intro st st' pr x0 tol mi; cases pr <;> rfl)

/-- Claim C10: Regula Falsi divides by `f(b) - f(a)` with no guard.  When
both endpoint values are exactly zero the opposite-sign precondition
(`f(a)*f(b) > 0`) passes, and the first pass's division by zero raises a
ZeroDivisionError that escapes the method instead of any Failed outcome. -/
theorem C10_regula_falsi_zero_division (st : List BracketRec)
    (f df : ℚ → ℚ) (a b tol : ℚ) (mi : ℕ)
    (hfa : f a = 0) (hfb : f b = 0) (hmi : 1 ≤ mi) :
    (regula_falsi_method st (.ok f df) a b tol mi).1 =
      .error "ZeroDivisionError: float division by zero" := by
  simp only [regula_falsi_method]
  rw [if_neg (by rw [hfa]; simp)]
  obtain ⟨k, rfl⟩ : ∃ k, mi = k + 1 := ⟨mi - 1, by omega⟩
  simp only [regulaLoop]
  rw [if_pos (by rw [hfa, hfb]; ring)]

/-- Concrete instantiation of C10: `f(x) = x^2 - 1` on `[-1, 1]` has
`f(-1) = f(1) = 0`; the call raises the ZeroDivisionError. -/
theorem C10_regula_falsi_zero_division_witness :
    ((fun x : ℚ => x ^ 2 - 1) (-1) = 0 ∧ (fun x : ℚ => x ^ 2 - 1) 1 = 0 ∧
      (1 : ℕ) ≤ 100) ∧
    (regula_falsi_method [] (.ok (fun x : ℚ => x ^ 2 - 1) (fun x => 2 * x))
      (-1) 1 (1/1000000) 100).1 =
      .error "ZeroDivisionError: float division by zero" :=
  ⟨⟨by norm_num, by norm_num, by norm_num⟩,
    C10_regula_falsi_zero_division [] (fun x : ℚ => x ^ 2 - 1) (fun x => 2 * x)
      (-1) 1 (1/1000000) 100 (by norm_num) (by norm_num) (by norm_num)⟩

/-- C9 loop lemma, Bisection: the web loop run from the rendered trace is
the rendering of the CLI loop — in particular both follow the same
iteration sequence. -/
theorem bisectionLoop_renders (rnd : ℚ → ℚ) (fmt : ℚ → String) (f : ℚ → ℚ)
    (tol : ℚ) (maxIter : ℕ) :
    ∀ (fuel : ℕ) (a b fa fb : ℚ) (i : ℕ) (trace : List BracketRec)
      (last : Option (ℚ × ℚ)),
      (ZOFWeb.bisectionLoop rnd fmt f tol maxIter a b fa fb i
          (trace.map (renderBracketRec rnd fmt)) last fuel).1 =
        Except.map (renderOutcome rnd fmt (renderBracketRec rnd fmt))
          ((bisectionLoop f tol maxIter a b fa fb i trace last fuel).1) := by
  intro fuel
  induction fuel with
  | zero =>
    intro a b fa fb i trace last
    match last with
    | none => simp [bisectionLoop, ZOFWeb.bisectionLoop, Except.map]
    | some (c, e) =>
      simp [bisectionLoop, ZOFWeb.bisectionLoop, Except.map, renderOutcome]
  | succ fuel ih =>
    intro a b fa fb i trace last
    simp only [bisectionLoop, ZOFWeb.bisectionLoop]
    split_ifs with hconv hsign
    · simp [Except.map, renderOutcome, List.map_append, renderBracketRec]
    · have h := ih a ((a + b) / 2) fa (f ((a + b) / 2)) (i + 1)
        (trace ++ [⟨i, a, b, (a + b) / 2, f ((a + b) / 2), |b - a| / 2⟩])
        (some ((a + b) / 2, |b - a| / 2))
      simpa [List.map_append, renderBracketRec] using h
    · have h := ih ((a + b) / 2) b (f ((a + b) / 2)) fb (i + 1)
        (trace ++ [⟨i, a, b, (a + b) / 2, f ((a + b) / 2), |b - a| / 2⟩])
        (some ((a + b) / 2, |b - a| / 2))
      simpa [List.map_append, renderBracketRec] using h

/-- C9 loop lemma, Regula Falsi. -/
theorem regulaLoop_renders (rnd : ℚ → ℚ) (fmt : ℚ → String) (f : ℚ → ℚ)
    (tol : ℚ) (maxIter : ℕ) :
    ∀ (fuel : ℕ) (a b fa fb c_old : ℚ) (i : ℕ) (trace : List BracketRec)
      (last : Option (ℚ × ℚ)),
      (ZOFWeb.regulaLoop rnd fmt f tol maxIter a b fa fb c_old i
          (trace.map (renderBracketRec rnd fmt)) last fuel).1 =
        Except.map (renderOutcome rnd fmt (renderBracketRec rnd fmt))
          ((regulaLoop f tol maxIter a b fa fb c_old i trace last fuel).1) := by
  intro fuel
  induction fuel with
  | zero =>
    intro a b fa fb c_old i trace last
    match last with
    | none => simp [regulaLoop, ZOFWeb.regulaLoop, Except.map]
    | some (c, e) =>
      simp [regulaLoop, ZOFWeb.regulaLoop, Except.map, renderOutcome]
  | succ fuel ih =>
    intro a b fa fb c_old i trace last
    simp only [regulaLoop, ZOFWeb.regulaLoop]
    by_cases hz : fb - fa = 0
    · simp [hz, Except.map]
    · rw [if_neg hz, if_neg hz]
      set c := b - fb * (b - a) / (fb - fa) with hcdef
      set E := if 1 < i then |c - c_old| else |b - a| with hE
      split_ifs with hconv hsign
      · simp [Except.map, renderOutcome, List.map_append, renderBracketRec]
      · have h := ih a c fa (f c) c (i + 1)
          (trace ++ [⟨i, a, b, c, f c, E⟩]) (some (c, E))
        simpa [List.map_append, renderBracketRec] using h
      · have h := ih c b (f c) fb c (i + 1)
          (trace ++ [⟨i, a, b, c, f c, E⟩]) (some (c, E))
        simpa [List.map_append, renderBracketRec] using h

/-- C9 loop lemma, Secant. -/
theorem secantLoop_renders (rnd : ℚ → ℚ) (fmt : ℚ → String) (f : ℚ → ℚ)
    (tol : ℚ) (maxIter : ℕ) :
    ∀ (fuel : ℕ) (x0 x1 f0 f1 : ℚ) (i : ℕ) (trace : List SecRec)
      (last : Option (ℚ × ℚ)),
      (ZOFWeb.secantLoop rnd fmt f tol maxIter x0 x1 f0 f1 i
          (trace.map (renderSecRec rnd fmt)) last fuel).1 =
        Except.map (renderOutcome rnd fmt (renderSecRec rnd fmt))
          ((secantLoop f tol maxIter x0 x1 f0 f1 i trace last fuel).1) := by
  intro fuel
  induction fuel with
  | zero =>
    intro x0 x1 f0 f1 i trace last
    match last with
    | none => simp [secantLoop, ZOFWeb.secantLoop, Except.map]
    | some (x2, e) =>
      simp [secantLoop, ZOFWeb.secantLoop, Except.map, renderOutcome]
  | succ fuel ih =>
    intro x0 x1 f0 f1 i trace last
    simp only [secantLoop, ZOFWeb.secantLoop]
    set x2 := x1 - f1 * (x1 - x0) / (f1 - f0) with hx2
    split_ifs with hguard hconv
    · simp [Except.map, renderOutcome]
    · simp [Except.map, renderOutcome, List.map_append, renderSecRec]
    · have h := ih x1 x2 f1 (f x2) (i + 1)
        (trace ++ [⟨i, x0, x1, x2, f x2, |x2 - x1|⟩]) (some (x2, |x2 - x1|))
      simpa [List.map_append, renderSecRec] using h

/-- C9 loop lemma, Newton-Raphson. -/
theorem newtonLoop_renders (rnd : ℚ → ℚ) (fmt : ℚ → String) (f df : ℚ → ℚ)
    (tol : ℚ) (maxIter : ℕ) :
    ∀ (fuel : ℕ) (x : ℚ) (i : ℕ) (trace : List NewtRec) (last : Option ℚ),
      (ZOFWeb.newtonLoop rnd fmt f df tol maxIter x i
          (trace.map (renderNewtRec rnd fmt)) last fuel).1 =
        Except.map (renderOutcome rnd fmt (renderNewtRec rnd fmt))
          ((newtonLoop f df tol maxIter x i trace last fuel).1) := by
  intro fuel
  induction fuel with
  | zero =>
    intro x i trace last
    match last with
    | none => simp [newtonLoop, ZOFWeb.newtonLoop, Except.map]
    | some e => simp [newtonLoop, ZOFWeb.newtonLoop, Except.map, renderOutcome]
  | succ fuel ih =>
    intro x i trace last
    simp only [newtonLoop, ZOFWeb.newtonLoop]
    set xn := x - f x / df x with hxn
    split_ifs with hguard hconv
    · simp [Except.map, renderOutcome]
    · simp [Except.map, renderOutcome, List.map_append, renderNewtRec]
    · have h := ih xn (i + 1)
        (trace ++ [⟨i, x, f x, df x, xn, |xn - x|⟩]) (some (|xn - x|))
      simpa [List.map_append, renderNewtRec] using h

/-- C9 loop lemma, Fixed Point. -/
theorem fixedLoop_renders (rnd : ℚ → ℚ) (fmt : ℚ → String) (g : ℚ → ℚ)
    (tol : ℚ) (maxIter : ℕ) :
    ∀ (fuel : ℕ) (x : ℚ) (i : ℕ) (trace : List FixRec) (last : Option ℚ),
      (ZOFWeb.fixedLoop rnd fmt g tol maxIter x i
          (trace.map (renderFixRec rnd fmt)) last fuel).1 =
        Except.map (renderOutcome rnd fmt (renderFixRec rnd fmt))
          ((fixedLoop g tol maxIter x i trace last fuel).1) := by
  intro fuel
  induction fuel with
  | zero =>
    intro x i trace last
    match last with
    | none => simp [fixedLoop, ZOFWeb.fixedLoop, Except.map]
    | some e => simp [fixedLoop, ZOFWeb.fixedLoop, Except.map, renderOutcome]
  | succ fuel ih =>
    intro x i trace last
    simp only [fixedLoop, ZOFWeb.fixedLoop]
    split_ifs with hconv hdiv
    · simp [Except.map, renderOutcome, List.map_append, renderFixRec]
    · simp [Except.map, renderOutcome]
    · have h := ih (g x) (i + 1)
        (trace ++ [⟨i, x, g x, |g x - x|⟩]) (some (|g x - x|))
      simpa [List.map_append, renderFixRec] using h

/-- C9 loop lemma, Modified Secant. -/
theorem modSecantLoop_renders (rnd : ℚ → ℚ) (fmt : ℚ → String) (f : ℚ → ℚ)
    (delta tol : ℚ) (maxIter : ℕ) :
    ∀ (fuel : ℕ) (x : ℚ) (i : ℕ) (trace : List ModRec) (last : Option ℚ),
      (ZOFWeb.modSecantLoop rnd fmt f delta tol maxIter x i
          (trace.map (renderModRec rnd fmt)) last fuel).1 =
        Except.map (renderOutcome rnd fmt (renderModRec rnd fmt))
          ((modSecantLoop f delta tol maxIter x i trace last fuel).1) := by
  intro fuel
  induction fuel with
  | zero =>
    intro x i trace last
    match last with
    | none => simp [modSecantLoop, ZOFWeb.modSecantLoop, Except.map]
    | some e =>
      simp [modSecantLoop, ZOFWeb.modSecantLoop, Except.map, renderOutcome]
  | succ fuel ih =>
    intro x i trace last
    simp only [modSecantLoop, ZOFWeb.modSecantLoop]
    set P := if x ≠ 0 then f (x + delta * x) else f (x + delta) with hP
    set S := if x ≠ 0 then delta * x else delta with hS
    set xn := x - f x * S / (P - f x) with hxn
    split_ifs with hguard hconv
    · simp [Except.map, renderOutcome]
    · simp [Except.map, renderOutcome, List.map_append, renderModRec]
    · have h := ih xn (i + 1)
        (trace ++ [⟨i, x, f x, P, xn, |xn - x|⟩]) (some (|xn - x|))
      simpa [List.map_append, renderModRec] using h

/-- Claim C9: for every input, the web engine (`app.py`) runs the same
iteration sequence as the CLI engine (`ZOF_CLI.py`) and returns the CLI
outcome rendered: equal iteration counts and identical error/warning
conditions (failure reasons and raised exceptions are the same strings),
with the web root and per-row numeric fields equal to the CLI values passed
through the rounding function and the web error fields equal to the CLI
errors passed through the formatting function.  `rnd` and `fmt` stand for
Python's `round(., 10)` and the `.6e` f-string, which fall outside the
exact-rational embedding; the equality holds for every choice of them, and
the incoming instance states of the two engines are unconstrained. -/
theorem C9_web_engine_renders_cli_engine :
    (∀ rnd fmt st st' pr (a b tol : ℚ) mi,
      (ZOFWeb.bisection_method rnd fmt st' pr a b tol mi).1 =
        Except.map (renderOutcome rnd fmt (renderBracketRec rnd fmt))
          ((bisection_method st pr a b tol mi).1)) ∧
    (∀ rnd fmt st st' pr (a b tol : ℚ) mi,
      (ZOFWeb.regula_falsi_method rnd fmt st' pr a b tol mi).1 =
        Except.map (renderOutcome rnd fmt (renderBracketRec rnd fmt))
          ((regula_falsi_method st pr a b tol mi).1)) ∧
    (∀ rnd fmt st st' pr (x0 x1 tol : ℚ) mi,
      (ZOFWeb.secant_method rnd fmt st' pr x0 x1 tol mi).1 =
        Except.map (renderOutcome rnd fmt (renderSecRec rnd fmt))
          ((secant_method st pr x0 x1 tol mi).1)) ∧
    (∀ rnd fmt st st' pr (x0 tol : ℚ) mi,
      (ZOFWeb.newton_raphson_method rnd fmt st' pr x0 tol mi).1 =
        Except.map (renderOutcome rnd fmt (renderNewtRec rnd fmt))
          ((newton_raphson_method st pr x0 tol mi).1)) ∧
    (∀ rnd fmt st st' pr (x0 tol : ℚ) mi,
      (ZOFWeb.fixed_point_iteration rnd fmt st' pr x0 tol mi).1 =
        Except.map (renderOutcome rnd fmt (renderFixRec rnd fmt))
          ((fixed_point_iteration st pr x0 tol mi).1)) ∧
    (∀ rnd fmt st st' pr (x0 delta tol : ℚ) mi,
      (ZOFWeb.modified_secant_method rnd fmt st' pr x0 delta tol mi).1 =
        Except.map (renderOutcome rnd fmt (renderModRec rnd fmt))
          ((modified_secant_method st pr x0 delta tol mi).1)) := by
  refine ⟨?_, ?_, ?_, ?_, ?_, ?_⟩
  · intro rnd fmt st st' pr a b tol mi
    match pr with
    | .err m => simp [bisection_method, ZOFWeb.bisection_method, Except.map]
    | .ok f df =>
      simp only [bisection_method, ZOFWeb.bisection_method]
      split_ifs with hpos
      · simp [Except.map, renderOutcome]
      · simpa using bisectionLoop_renders rnd fmt f tol mi mi a b (f a) (f b) 1 [] none
  · intro rnd fmt st st' pr a b tol mi
    match pr with
    | .err m => simp [regula_falsi_method, ZOFWeb.regula_falsi_method, Except.map]
    | .ok f df =>
      simp only [regula_falsi_method, ZOFWeb.regula_falsi_method]
      split_ifs with hpos
      · simp [Except.map, renderOutcome]
      · simpa using regulaLoop_renders rnd fmt f tol mi mi a b (f a) (f b) a 1 [] none
  · intro rnd fmt st st' pr x0 x1 tol mi
    match pr with
    | .err m => simp [secant_method, ZOFWeb.secant_method, Except.map]
    | .ok f df =>
      simpa using secantLoop_renders rnd fmt f tol mi mi x0 x1 (f x0) (f x1) 1 [] none
  · intro rnd fmt st st' pr x0 tol mi
    match pr with
    | .err m => simp [newton_raphson_method, ZOFWeb.newton_raphson_method, Except.map]
    | .ok f df =>
      simpa using newtonLoop_renders rnd fmt f df tol mi mi x0 1 [] none
  · intro rnd fmt st st' pr x0 tol mi
    match pr with
    | .err m => simp [fixed_point_iteration, ZOFWeb.fixed_point_iteration, Except.map]
    | .ok g df =>
      simpa using fixedLoop_renders rnd fmt g tol mi mi x0 1 [] none
  · intro rnd fmt st st' pr x0 delta tol mi
    match pr with
    | .err m => simp [modified_secant_method, ZOFWeb.modified_secant_method, Except.map]
    | .ok f df =>
      simpa using modSecantLoop_renders rnd fmt f delta tol mi mi x0 1 [] none

end ZOF

